import Mathlib

/-!
Verification of `scripts/strava_cache.py` (polyline codec and geometry
pipeline).  Python code is shallowly embedded: strings become `String` /
lists of character codes, Python ints become `Nat`/`Int`, Python floats
become `ℚ` (all float arithmetic in the source is exact decimal-scale
arithmetic: integer accumulation followed by division by `1e5`, halving,
and rounding to 3 decimals), dicts with optional keys become structures
with `Option` fields, and exceptions become `Option`/`Except` or explicit
outcome constructors.
-/

namespace StravaCache

/-! ## Polyline decoder (`decode_polyline`, strava_cache.py lines 26–60) -/

/-- One continuation-bit varint read of the decoder's inner `while True`
loop: `b = ord(...) - 63; index += 1; result |= (b & 0x1f) << shift;
shift += 5; if b < 0x20: break`.  `b` is an arbitrary Python int, so
`b & 0x1f` is the mathematical residue `b % 32` (Python `&` with a
two's-complement mask equals `%` for every int).  Reading past the end of
the string (`polyline_str[index]` with `index == len`) raises
`IndexError`, modelled as `none`. -/
def decodeVarint : List Nat → Nat → Nat → Option (Nat × List Nat)
  | [], _, _ => none
  | c :: rest, shift, result =>
    let b : Int := (c : Int) - 63
    let result1 : Nat := result ||| (((b % 32).toNat) <<< shift)
    if b < 32 then some (result1, rest)
    else decodeVarint rest (shift + 5) result1

/-- Sign decoding of an accumulated varint:
`~(result >> 1) if (result & 1) else (result >> 1)`, with Python `~n`
being `-n - 1`. -/
def signedDelta (result : Nat) : Int :=
  if result &&& 1 = 1 then -((result >>> 1 : Nat) : Int) - 1
  else ((result >>> 1 : Nat) : Int)

/-- The decoder's outer `while index < length` loop: latitude varint,
longitude varint, accumulate, append `(lat / 1e5, lng / 1e5)`.  The fuel
argument is only a structural-termination device; `decode_polyline`
supplies the input length, which the loop (consuming at least two
characters per iteration, at least one per successful varint) can never
exhaust. -/
def decodeLoop : Nat → List Nat → Int → Int → Option (List (ℚ × ℚ))
  | _, [], _, _ => some []
  | 0, _ :: _, _, _ => none
  | fuel + 1, c :: cs, lat, lng =>
    match decodeVarint (c :: cs) 0 0 with
    | none => none
    | some (rlat, l1) =>
      let lat1 := lat + signedDelta rlat
      match decodeVarint l1 0 0 with
      | none => none
      | some (rlng, l2) =>
        let lng1 := lng + signedDelta rlng
        match decodeLoop fuel l2 lat1 lng1 with
        | none => none
        | some rest => some (((lat1 : ℚ) / 100000, (lng1 : ℚ) / 100000) :: rest)

/-- `decode_polyline(polyline_str)`: returns the decoded list of
`(lat, lon)` pairs, or `none` when the cursor would run past the end of
the string mid-step (Python: an uncaught `IndexError`). -/
def decode_polyline (s : String) : Option (List (ℚ × ℚ)) :=
  let codes := s.toList.map Char.toNat
  decodeLoop codes.length codes 0 0

/-- Integer-level view of `decodeLoop`: the same loop, keeping the
accumulated scaled coordinates instead of dividing by `1e5`.  Used to
evaluate the decoder on concrete inputs. -/
def decodeLoopZ : Nat → List Nat → Int → Int → Option (List (Int × Int))
  | _, [], _, _ => some []
  | 0, _ :: _, _, _ => none
  | fuel + 1, c :: cs, lat, lng =>
    match decodeVarint (c :: cs) 0 0 with
    | none => none
    | some (rlat, l1) =>
      let lat1 := lat + signedDelta rlat
      match decodeVarint l1 0 0 with
      | none => none
      | some (rlng, l2) =>
        let lng1 := lng + signedDelta rlng
        match decodeLoopZ fuel l2 lat1 lng1 with
        | none => none
        | some rest => some ((lat1, lng1) :: rest)

/-! ## Geometry deriver (`bbox_from_coords`, `center_from_bbox`,
lines 62–69) -/

/-- Python `min(xs)` on a list of numbers; raises `ValueError` on an
empty list, modelled as `none`. -/
def pyMinList : List ℚ → Option ℚ
  | [] => none
  | x :: xs => some (xs.foldl min x)

/-- Python `max(xs)`; `none` models the `ValueError` on an empty list. -/
def pyMaxList : List ℚ → Option ℚ
  | [] => none
  | x :: xs => some (xs.foldl max x)

/-- `bbox_from_coords(coords)`: `[min(lngs), min(lats), max(lngs),
max(lats)]`, where `lats`/`lngs` project the first/second component. -/
def bbox_from_coords (coords : List (ℚ × ℚ)) : Option (List ℚ) :=
  let lats := coords.map (fun c => c.1)
  let lngs := coords.map (fun c => c.2)
  match pyMinList lngs, pyMinList lats, pyMaxList lngs, pyMaxList lats with
  | some a, some b, some c, some d => some [a, b, c, d]
  | _, _, _, _ => none

/-- `center_from_bbox(b)`: destructures `minx, miny, maxx, maxy = b`
(raising on any other shape, modelled as `none`) and returns
`[(minx+maxx)/2.0, (miny+maxy)/2.0]`. -/
def center_from_bbox : List ℚ → Option (List ℚ)
  | [minx, miny, maxx, maxy] => some [(minx + maxx) / 2, (miny + maxy) / 2]
  | _ => none

/-! ## Identifier normalizer (`slugify`, lines 19–24) -/

/-- Modelled from the Python standard library:
`unicodedata.normalize("NFKD", ·)` applied character-wise.  The
decomposition table is restricted to the precomposed Latin-1 letters
(base letter followed by a combining mark, as NFKD produces); every
other character, in particular all of ASCII, is left unchanged. -/
def nfkdChar (c : Char) : List Char :=
  match c with
  | 'À' => ['A', '̀'] | 'Á' => ['A', '́'] | 'Â' => ['A', '̂']
  | 'Ã' => ['A', '̃'] | 'Ä' => ['A', '̈'] | 'Å' => ['A', '̊']
  | 'Ç' => ['C', '̧'] | 'È' => ['E', '̀'] | 'É' => ['E', '́']
  | 'Ê' => ['E', '̂'] | 'Ë' => ['E', '̈'] | 'Ì' => ['I', '̀']
  | 'Í' => ['I', '́'] | 'Î' => ['I', '̂'] | 'Ï' => ['I', '̈']
  | 'Ñ' => ['N', '̃'] | 'Ò' => ['O', '̀'] | 'Ó' => ['O', '́']
  | 'Ô' => ['O', '̂'] | 'Õ' => ['O', '̃'] | 'Ö' => ['O', '̈']
  | 'Ù' => ['U', '̀'] | 'Ú' => ['U', '́'] | 'Û' => ['U', '̂']
  | 'Ü' => ['U', '̈'] | 'Ý' => ['Y', '́']
  | 'à' => ['a', '̀'] | 'á' => ['a', '́'] | 'â' => ['a', '̂']
  | 'ã' => ['a', '̃'] | 'ä' => ['a', '̈'] | 'å' => ['a', '̊']
  | 'ç' => ['c', '̧'] | 'è' => ['e', '̀'] | 'é' => ['e', '́']
  | 'ê' => ['e', '̂'] | 'ë' => ['e', '̈'] | 'ì' => ['i', '̀']
  | 'í' => ['i', '́'] | 'î' => ['i', '̂'] | 'ï' => ['i', '̈']
  | 'ñ' => ['n', '̃'] | 'ò' => ['o', '̀'] | 'ó' => ['o', '́']
  | 'ô' => ['o', '̂'] | 'õ' => ['o', '̃'] | 'ö' => ['o', '̈']
  | 'ù' => ['u', '̀'] | 'ú' => ['u', '́'] | 'û' => ['u', '̂']
  | 'ü' => ['u', '̈'] | 'ý' => ['y', '́'] | 'ÿ' => ['y', '̈']
  | c => [c]

/-- `.encode("ascii", "ignore").decode("ascii")`: keeps exactly the
characters with code point below 128. -/
def asciiIgnore (l : List Char) : List Char :=
  l.filter (fun c => c.toNat < 128)

/-- Python regex `\w` over the ASCII characters that survive the
`ascii`-encode step: `[A-Za-z0-9_]`. -/
def isPyWordChar (c : Char) : Bool :=
  (65 ≤ c.toNat && c.toNat ≤ 90) || (97 ≤ c.toNat && c.toNat ≤ 122) ||
    (48 ≤ c.toNat && c.toNat ≤ 57) || c = '_'

/-- Python regex `\s` over ASCII: space, tab, newline, carriage return,
vertical tab, form feed. -/
def isPySpace (c : Char) : Bool :=
  c = ' ' || c = '\t' || c = '\n' || c = '\r' || c.toNat = 11 || c.toNat = 12

/-- `str.strip()` on the ASCII text reaching it in `slugify` (its
whitespace set restricted to the characters that survive the preceding
`re.sub`). -/
def pyStrip (l : List Char) : List Char :=
  ((l.dropWhile isPySpace).reverse.dropWhile isPySpace).reverse

/-- A character matched by the regex class `[-\s]`. -/
def isHyphenSpace (c : Char) : Bool :=
  c = '-' || isPySpace c

/-- `re.sub(r"[-\s]+", "-", ·)`: each maximal run of hyphen/whitespace
characters becomes a single hyphen.  The `Bool` flag records whether the
previous character was part of such a run. -/
def collapseAux : Bool → List Char → List Char
  | _, [] => []
  | inRun, c :: cs =>
    if isHyphenSpace c then
      if inRun then collapseAux true cs else '-' :: collapseAux true cs
    else c :: collapseAux false cs

/-- `slugify(value)` (lines 19–24): NFKD-normalize, drop non-ASCII,
remove characters outside `[\w\s-]`, strip, lowercase, collapse
hyphen/whitespace runs to single hyphens, truncate to 60 characters,
and fall back to `"route"` when the result is empty. -/
def slugify (value : String) : String :=
  let ascii := asciiIgnore ((value.toList.map nfkdChar).flatten)
  let kept := ascii.filter (fun c => isPyWordChar c || isPySpace c || c = '-')
  let lowered := (pyStrip kept).map Char.toLower
  let collapsed := collapseAux false lowered
  let truncated := collapsed.take 60
  if truncated.isEmpty then "route" else String.mk truncated

/-! ## Polyline encoder, modelled from the spec for claim C3 -/

/-- Modelled from the spec: split an unsigned accumulated value into
5-bit chunks, least significant first, each chunk offset by 63, with
bit 6 (`0x20`) set on every chunk except the last. -/
def encodeChunks (v : Nat) : List Nat :=
  if v < 32 then [v + 63]
  else (32 + v % 32 + 63) :: encodeChunks (v / 32)
termination_by v
decreasing_by exact Nat.div_lt_self (by omega) (by omega)

/-- Modelled from the spec: the unsigned value carrying a signed delta —
the delta shifted left once, complemented when negative (so bit 0 holds
the sign). -/
def encodeSignedValue (d : Int) : Nat :=
  if d < 0 then (-(2 * d) - 1).toNat else (2 * d).toNat

/-- Modelled from the spec: the character codes encoding one signed
delta. -/
def encodeSigned (d : Int) : List Nat :=
  encodeChunks (encodeSignedValue d)

/-- Modelled from the spec: encode a coordinate list (in units of
`1e-5` degrees) as successive latitude/longitude deltas from the
previous point, starting at `(0, 0)`. -/
def encodeCoords : Int → Int → List (Int × Int) → List Nat
  | _, _, [] => []
  | plat, plng, (la, ln) :: rest =>
    encodeSigned (la - plat) ++ (encodeSigned (ln - plng) ++ encodeCoords la ln rest)

/-- Modelled from the spec: the polyline string encoding a coordinate
list given in units of `1e-5` degrees (i.e. coordinates rounded to 5
decimal places). -/
def encode_polyline (xs : List (Int × Int)) : String :=
  String.mk ((encodeCoords 0 0 xs).map Char.ofNat)

/-! ## The per-route pipeline and index builder (`main`, lines 138–228)

Route records are dicts with optional keys; they become structures of
`Option` fields.  `elevation_gain` needs two `Option` layers: the key
can be missing (`none`, so `r.get("elevation_gain", 0.0)` yields the
default) or present with a JSON `null` value (`some none`).  The
network side (`get_route_detail`) is an external collaborator: its
outcome is a parameter — `Except.error ()` models the call raising, and
`Except.ok m` models a response whose `"map"` value is `m`. -/

structure MapField where
  polyline : Option String
  summary_polyline : Option String
deriving DecidableEq

structure RawRoute where
  id : Nat
  name : Option String
  distance : Option ℚ
  elevation_gain : Option (Option ℚ)
  type : Option String
  updated_at : Option String
  created_at : Option String
  map : Option MapField
deriving DecidableEq

/-- Python `a or b` on optional strings: `None` and `""` are falsy. -/
def pyOrStr (a b : Option String) : Option String :=
  match a with
  | some s => if s = "" then b else some s
  | none => b

/-- Python truthiness of an optional string (`if not mp`). -/
def truthyStr : Option String → Bool
  | none => false
  | some s => s != ""

/-- `(d.get("map") or {}).get("polyline")`. -/
def mapPolyline (m : Option MapField) : Option String :=
  m.bind MapField.polyline

/-- `(d.get("map") or {}).get("summary_polyline")`. -/
def mapSummaryPolyline (m : Option MapField) : Option String :=
  m.bind MapField.summary_polyline

/-- Lines 164–173: resolve the best-available polyline string — the
detail response's `map.polyline or map.summary_polyline` when the
detail fetch succeeds and that chain is truthy, otherwise the
list-level record's own `map.polyline or map.summary_polyline`. -/
def resolveMp (detailFetch : Except Unit (Option MapField)) (r : RawRoute) : Option String :=
  match detailFetch with
  | Except.ok dm =>
    let mp := pyOrStr (mapPolyline dm) (mapSummaryPolyline dm)
    if truthyStr mp then mp
    else pyOrStr (mapPolyline r.map) (mapSummaryPolyline r.map)
  | Except.error _ =>
    pyOrStr (mapPolyline r.map) (mapSummaryPolyline r.map)

/-- Line 157: `name = r.get("name") or f"Route {route_id}"`. -/
def routeName (r : RawRoute) : String :=
  match r.name with
  | none => "Route " ++ toString r.id
  | some s => if s = "" then "Route " ++ toString r.id else s

/-- Python 3 `round` to an integer: round-half-to-even on the exact
value (float representation error is outside this model). -/
def roundHalfEven (q : ℚ) : Int :=
  if q - ⌊q⌋ < 1 / 2 then ⌊q⌋
  else if 1 / 2 < q - ⌊q⌋ then ⌊q⌋ + 1
  else if ⌊q⌋ % 2 = 0 then ⌊q⌋ else ⌊q⌋ + 1

/-- Python `round(x, 3)`. -/
def pyRound3 (x : ℚ) : ℚ :=
  ((roundHalfEven (x * 1000) : Int) : ℚ) / 1000

/-- `km(meters)` (lines 74–75): `round((meters or 0.0) / 1000.0, 3)`.
The argument is always a number at the call sites of the model, and
`m or 0.0` is the identity on numbers (`0.0 or 0.0` is `0.0`). -/
def km (meters : ℚ) : ℚ :=
  pyRound3 (meters / 1000)

structure FeatureProps where
  id : Nat
  name : String
  slug : String
  type : Option String
  distance_m : ℚ
  distance_km : ℚ
  elev_gain_m : ℚ
  updated_at : Option String
deriving DecidableEq

structure Feature where
  properties : FeatureProps
  coordinates : List (List ℚ)
deriving DecidableEq

/-- `polyline_to_geojson_feature(coords, properties)` (lines 127–134):
swaps the axis order, `[[lon, lat] for lat, lon in coords]`. -/
def polyline_to_geojson_feature (coords : List (ℚ × ℚ)) (properties : FeatureProps) : Feature :=
  { properties := properties, coordinates := coords.map (fun p => [p.2, p.1]) }

/-- The FeatureCollection document written per route (line 199). -/
structure GeoJson where
  features : List Feature
  bbox : List ℚ
deriving DecidableEq

structure ManifestEntry where
  id : Nat
  name : String
  slug : String
  type : Option String
  distance_m : ℚ
  distance_km : ℚ
  elev_gain_m : ℚ
  file : String
  bbox : List ℚ
  center : List ℚ
  updated_at : Option String
deriving DecidableEq

/-- A per-route geometry file write: target path and document. -/
structure WrittenFile where
  path : String
  doc : GeoJson
deriving DecidableEq

/-- Outcome of one iteration of the `for r in routes` loop
(lines 155–220).  The two `raised` constructors model uncaught Python
exceptions (`IndexError` from `decode_polyline`, `ValueError` from
`min`/`max` on an empty list — the latter unreachable because the loop
only reaches `bbox_from_coords` with non-empty coords). -/
inductive RouteOutcome where
  | skippedNoPolyline
  | skippedEmptyCoords
  | raisedIndexError
  | raisedValueError
  | ok (file : WrittenFile) (entry : ManifestEntry)
deriving DecidableEq

/-- `os.path.join` for a relative second component (POSIX). -/
def pathJoin (a b : String) : String :=
  a ++ "/" ++ b

/-- One iteration of the routes loop (lines 155–220), parameterized by
the configurable `ROUTES_DIR`.  Note line 203 writes the file under
`ROUTES_DIR` while line 216 records `f"routes/{filename}"` with a
hard-coded `routes/` prefix. -/
def processRoute (routesDir : String) (r : RawRoute)
    (detailFetch : Except Unit (Option MapField)) : RouteOutcome :=
  let name := routeName r
  let slug := slugify name
  let distance_m : ℚ := r.distance.getD 0
  let elevVal : Option ℚ := r.elevation_gain.getD (some 0)
  let elev_gain_m : ℚ := match elevVal with | none => 0 | some x => x
  let updated_at := pyOrStr r.updated_at r.created_at
  let mp := resolveMp detailFetch r
  if truthyStr mp then
    match decode_polyline (mp.getD "") with
    | none => RouteOutcome.raisedIndexError
    | some [] => RouteOutcome.skippedEmptyCoords
    | some (c :: cs) =>
      match bbox_from_coords (c :: cs) with
      | none => RouteOutcome.raisedValueError
      | some bbox =>
        match center_from_bbox bbox with
        | none => RouteOutcome.raisedValueError
        | some center =>
          let props : FeatureProps :=
            { id := r.id, name := name, slug := slug, type := r.type,
              distance_m := distance_m, distance_km := km distance_m,
              elev_gain_m := elev_gain_m, updated_at := updated_at }
          let feature := polyline_to_geojson_feature (c :: cs) props
          let gj : GeoJson := { features := [feature], bbox := bbox }
          let filename := "strava_route_" ++ toString r.id ++ "_" ++ slug ++ ".geojson"
          let entry : ManifestEntry :=
            { id := r.id, name := name, slug := slug, type := r.type,
              distance_m := distance_m, distance_km := km distance_m,
              elev_gain_m := elev_gain_m, file := "routes/" ++ filename,
              bbox := bbox, center := center, updated_at := updated_at }
          RouteOutcome.ok { path := pathJoin routesDir filename, doc := gj } entry
  else RouteOutcome.skippedNoPolyline

deriving instance DecidableEq for Except

/-- One route record together with the outcome of its detail fetch. -/
structure RunInput where
  route : RawRoute
  detailFetch : Except Unit (Option MapField)
deriving DecidableEq

/-- The routes loop: skips continue, `ok` accumulates a written file
and a manifest entry, and a raised exception aborts the whole loop
(`Except.error` carries the offending route id).  Matches the absence
of any try/except around `decode_polyline` in `main`. -/
def runRoutes (routesDir : String) : List RunInput → Except Nat (List WrittenFile × List ManifestEntry)
  | [] => Except.ok ([], [])
  | i :: rest =>
    match processRoute routesDir i.route i.detailFetch with
    | RouteOutcome.skippedNoPolyline => runRoutes routesDir rest
    | RouteOutcome.skippedEmptyCoords => runRoutes routesDir rest
    | RouteOutcome.raisedIndexError => Except.error i.route.id
    | RouteOutcome.raisedValueError => Except.error i.route.id
    | RouteOutcome.ok f e =>
      match runRoutes routesDir rest with
      | Except.error n => Except.error n
      | Except.ok (fs, es) => Except.ok (f :: fs, e :: es)

structure Manifest where
  generated_at : String
  athlete_id : Nat
  count : Nat
  routes : List ManifestEntry
deriving DecidableEq

/-- Line 223's sort key: `(x["type"] or "", x["name"] or "")` — a
missing type reads as `""` (`x["name"] or ""` is the identity on the
entry's string-valued name). -/
def sortKey (e : ManifestEntry) : String × String :=
  (e.type.getD "", e.name)

/-- Python `<` on strings: lexicographic comparison of the code-point
sequences. -/
def strLt (a b : List Char) : Bool :=
  match a, b with
  | [], [] => false
  | [], _ :: _ => true
  | _ :: _, [] => false
  | x :: xs, y :: ys =>
    if x.toNat < y.toNat then true
    else if y.toNat < x.toNat then false
    else strLt xs ys

/-- Python `<` on `str` values. -/
def pyStrLt (a b : String) : Bool :=
  strLt a.toList b.toList

/-- Python `<` on `(str, str)` tuples: lexicographic. -/
def keyLt (x y : String × String) : Prop :=
  pyStrLt x.1 y.1 = true ∨ (x.1 = y.1 ∧ pyStrLt x.2 y.2 = true)

/-- The total preorder realized by Python's ascending sort on the
key of line 223. -/
def manifestLe (a b : ManifestEntry) : Prop :=
  keyLt (sortKey a) (sortKey b) ∨ sortKey a = sortKey b

instance : DecidableRel manifestLe := fun a b => by
  unfold manifestLe keyLt
  infer_instance

/-- `index["routes"].sort(key=...)` (line 223): a stable ascending
sort by `sortKey`, modelled by insertion sort (stable, like Python's
Timsort). -/
def sortRoutes (l : List ManifestEntry) : List ManifestEntry :=
  l.insertionSort manifestLe

/-- `main` (lines 138–228), restricted to its pure content: the run
over all fetched routes, producing the written files and the manifest
(`generated_at` and `athlete_id` come from the external
collaborators).  `Except.error` models the run aborting with an
uncaught exception at the given route. -/
def main_model (routesDir generated_at : String) (athlete_id : Nat)
    (inputs : List RunInput) : Except Nat (List WrittenFile × Manifest) :=
  match runRoutes routesDir inputs with
  | Except.error n => Except.error n
  | Except.ok (fs, es) =>
    Except.ok (fs,
      { generated_at := generated_at, athlete_id := athlete_id,
        count := es.length, routes := sortRoutes es })

/-! ### Concrete inputs used by the claim theorems below -/

/-- A route whose only polyline string `"_"` is truncated mid-varint
(its single character has the continuation bit set). -/
def badRouteC2 : RawRoute :=
  { id := 5, name := some "Bad", distance := some 0, elevation_gain := none,
    type := some "run", updated_at := none, created_at := none,
    map := some { polyline := some "_", summary_polyline := none } }

/-- A well-formed single-point route, to observe whether the run
continues past the malformed one. -/
def goodRouteC2 : RawRoute :=
  { id := 6, name := some "Good", distance := some 0, elevation_gain := none,
    type := some "run", updated_at := none, created_at := none,
    map := some { polyline := some "_p~iF~ps|U", summary_polyline := none } }

/-- The path a successful iteration writes its geometry file to. -/
def outcomePath : RouteOutcome → Option String
  | RouteOutcome.ok f _ => some f.path
  | _ => none

/-- The `file` field a successful iteration records in its manifest
entry. -/
def outcomeFile : RouteOutcome → Option String
  | RouteOutcome.ok _ e => some e.file
  | _ => none

/-- A plain successfully-decodable route used for the C7 failing
input. -/
def routeC7 : RawRoute :=
  { id := 7, name := some "x", distance := some 0, elevation_gain := none,
    type := some "run", updated_at := none, created_at := none,
    map := some { polyline := some "_p~iF~ps|U", summary_polyline := none } }

/-- Witness for C9 at a concrete nameless route. -/
def routeC9 : RawRoute :=
  { id := 9, name := none, distance := some 0, elevation_gain := none,
    type := some "run", updated_at := none, created_at := none,
    map := some { polyline := some "_p~iF~ps|U", summary_polyline := none } }

/-- C10 concrete input: `elevation_gain` missing while `distance` is
present. -/
def routeC10 : RawRoute :=
  { id := 10, name := some "n", distance := some 100, elevation_gain := none,
    type := some "run", updated_at := none, created_at := none,
    map := some { polyline := some "_p~iF~ps|U", summary_polyline := none } }

/-- C10 concrete input: `distance` missing while `elevation_gain` is
present and non-null. -/
def routeC10b : RawRoute :=
  { id := 11, name := some "m", distance := none, elevation_gain := some (some 5),
    type := some "run", updated_at := none, created_at := none,
    map := some { polyline := some "_p~iF~ps|U", summary_polyline := none } }

/-- A manifest entry with the given type and name and trivial remaining
fields, for exercising the sort. -/
def mkSortEntry (ty : Option String) (nm : String) : ManifestEntry :=
  { id := 0, name := nm, slug := "", type := ty, distance_m := 0, distance_km := 0,
    elev_gain_m := 0, file := "", bbox := [], center := [], updated_at := none }

/-- The manifest of a completed run has its routes list sorted by
`manifestLe`. -/
def manifestRoutesSorted : Except Nat (List WrittenFile × Manifest) → Prop
  | Except.error _ => True
  | Except.ok (_, m) => m.routes.Sorted manifestLe

/-- The rational coordinates produced by `decodeLoop` are the
integer-level accumulators divided by `1e5`. -/
theorem decodeLoop_eq_decodeLoopZ (fuel : Nat) :
    ∀ (l : List Nat) (lat lng : Int),
      decodeLoop fuel l lat lng =
        Option.map (List.map fun p => ((p.1 : ℚ) / 100000, (p.2 : ℚ) / 100000))
          (decodeLoopZ fuel l lat lng) := by
  induction fuel with
  | zero =>
    intro l lat lng
    cases l <;> simp [decodeLoop, decodeLoopZ]
  | succ fuel ih =>
    intro l lat lng
    cases l with
    | nil => simp [decodeLoop, decodeLoopZ]
    | cons c cs =>
      simp only [decodeLoop, decodeLoopZ]
      cases hv1 : decodeVarint (c :: cs) 0 0 with
      | none => simp
      | some v1 =>
        obtain ⟨rlat, l1⟩ := v1
        cases hv2 : decodeVarint l1 0 0 with
        | none => simp [hv2]
        | some v2 =>
          obtain ⟨rlng, l2⟩ := v2
          simp only [hv2, ih]
          cases decodeLoopZ fuel l2 (lat + signedDelta rlat) (lng + signedDelta rlng) with
          | none => simp
          | some rest => simp

/-! ## Claims C1 and C8

The canonical polyline `"_p~iF~ps|U_ulLnnqC_mqNvxq`@"` decodes to
*three* points, not two: the encoding carries a third coordinate pair
`(43.252, -126.453)` after `(38.5, -120.2)` and `(40.7, -120.95)`. -/

/-- The integer-level decode of the canonical example, used by both the
counterexample and the corrected statement. -/
theorem decodeLoopZ_canonical :
    decodeLoopZ ("_p~iF~ps|U_ulLnnqC_mqNvxq`@".toList.map Char.toNat).length
      ("_p~iF~ps|U_ulLnnqC_mqNvxq`@".toList.map Char.toNat) 0 0 =
    some [((3850000 : Int), (-12020000 : Int)), ((4070000 : Int), (-12095000 : Int)),
      ((4325200 : Int), (-12645300 : Int))] := by
  decide

/-- C1 (counterexample): decoding the canonical polyline does *not*
yield the two-point path `[(38.5, -120.2), (40.7, -120.95)]` — a third
point follows. -/
theorem decode_canonical_not_two_points :
    decode_polyline "_p~iF~ps|U_ulLnnqC_mqNvxq`@" ≠
      some [((38.5 : ℚ), (-120.2 : ℚ)), ((40.7 : ℚ), (-120.95 : ℚ))] := by
  rw [decode_polyline, decodeLoop_eq_decodeLoopZ, decodeLoopZ_canonical]
  intro h
  have hlen := congrArg (fun o => Option.map List.length o) h
  simp at hlen

/-- C1 (amended): decoding the canonical polyline
`"_p~iF~ps|U_ulLnnqC_mqNvxq`@"` yields exactly the three-point path
`[(38.5, -120.2), (40.7, -120.95), (43.252, -126.453)]`; applying
`bbox_from_coords` to that path yields
`[-126.453, 38.5, -120.2, 43.252]`; and applying `center_from_bbox` to
that bbox yields `(-123.3265, 40.876)`. -/
theorem decode_canonical_example :
    decode_polyline "_p~iF~ps|U_ulLnnqC_mqNvxq`@" =
      some [((38.5 : ℚ), (-120.2 : ℚ)), ((40.7 : ℚ), (-120.95 : ℚ)),
        ((43.252 : ℚ), (-126.453 : ℚ))] ∧
    bbox_from_coords [((38.5 : ℚ), (-120.2 : ℚ)), ((40.7 : ℚ), (-120.95 : ℚ)),
        ((43.252 : ℚ), (-126.453 : ℚ))] =
      some [(-126.453 : ℚ), (38.5 : ℚ), (-120.2 : ℚ), (43.252 : ℚ)] ∧
    center_from_bbox [(-126.453 : ℚ), (38.5 : ℚ), (-120.2 : ℚ), (43.252 : ℚ)] =
      some [(-123.3265 : ℚ), (40.876 : ℚ)] := by
  refine ⟨?_, ?_, ?_⟩
  · rw [decode_polyline, decodeLoop_eq_decodeLoopZ, decodeLoopZ_canonical]
    norm_num
  · simp only [bbox_from_coords, List.map_cons, List.map_nil, pyMinList, pyMaxList,
      List.foldl_cons, List.foldl_nil]
    norm_num [min_def, max_def]
  · simp only [center_from_bbox]
    norm_num

/-- C8: decoding the empty string returns the empty path, not an
error. -/
theorem decode_polyline_empty : decode_polyline "" = some [] := by
  decide

/-! ## Claim C4

The apostrophe of `"l'Été"` is matched by `[^\w\s-]` and therefore
*deleted*, not replaced by a hyphen: `slugify "Café de l'Été!"` is
`"cafe-de-lete"`, not `"cafe-de-l-ete"`. -/

/-- C4 (counterexample): `slugify "Café de l'Été!"` is not
`"cafe-de-l-ete"`. -/
theorem slugify_example_ne_claimed :
    slugify "Café de l'Été!" ≠ "cafe-de-l-ete" := by
  decide

/-- C4 (amended): `slugify "Café de l'Été!"` is `"cafe-de-lete"` (the
apostrophe is deleted, yielding no hyphen); `slugify ""` is `"route"`;
and the slug never exceeds 60 characters. -/
theorem slugify_spec :
    slugify "Café de l'Été!" = "cafe-de-lete" ∧
    slugify "" = "route" ∧
    ∀ s : String, (slugify s).length ≤ 60 := by
  refine ⟨by decide, by decide, ?_⟩
  intro s
  simp only [slugify]
  split
  · decide
  · simp [String.length, List.length_take]

/-! ## Claim C5: bounding-box correctness -/

theorem foldl_min_le_init : ∀ (l : List ℚ) (a : ℚ), l.foldl min a ≤ a
  | [], _ => le_refl _
  | b :: l, a =>
    le_trans (le_trans (foldl_min_le_init l (min a b)) (min_le_left a b)) (le_refl a)

theorem foldl_min_le_mem : ∀ (l : List ℚ) (a x : ℚ), x ∈ l → l.foldl min a ≤ x := by
  intro l
  induction l with
  | nil => intro a x hx; cases hx
  | cons b l ih =>
    intro a x hx
    rcases List.mem_cons.mp hx with rfl | hx
    · exact le_trans (foldl_min_le_init l (min a x)) (min_le_right a x)
    · exact ih (min a b) x hx

theorem foldl_min_attained : ∀ (l : List ℚ) (a : ℚ), l.foldl min a = a ∨ l.foldl min a ∈ l := by
  intro l
  induction l with
  | nil => intro a; exact Or.inl rfl
  | cons b l ih =>
    intro a
    rcases ih (min a b) with heq | hmem
    · rcases min_choice a b with hab | hab
      · exact Or.inl (by rw [List.foldl_cons, heq, hab])
      · exact Or.inr (by rw [List.foldl_cons, heq, hab]; exact List.mem_cons_self b l)
    · exact Or.inr (List.mem_cons_of_mem b hmem)

theorem le_foldl_max_init : ∀ (l : List ℚ) (a : ℚ), a ≤ l.foldl max a
  | [], _ => le_refl _
  | b :: l, a =>
    le_trans (le_max_left a b) (le_foldl_max_init l (max a b))

theorem mem_le_foldl_max : ∀ (l : List ℚ) (a x : ℚ), x ∈ l → x ≤ l.foldl max a := by
  intro l
  induction l with
  | nil => intro a x hx; cases hx
  | cons b l ih =>
    intro a x hx
    rcases List.mem_cons.mp hx with rfl | hx
    · exact le_trans (le_max_right a x) (le_foldl_max_init l (max a x))
    · exact ih (max a b) x hx

theorem foldl_max_attained : ∀ (l : List ℚ) (a : ℚ), l.foldl max a = a ∨ l.foldl max a ∈ l := by
  intro l
  induction l with
  | nil => intro a; exact Or.inl rfl
  | cons b l ih =>
    intro a
    rcases ih (max a b) with heq | hmem
    · rcases max_choice a b with hab | hab
      · exact Or.inl (by rw [List.foldl_cons, heq, hab])
      · exact Or.inr (by rw [List.foldl_cons, heq, hab]; exact List.mem_cons_self b l)
    · exact Or.inr (List.mem_cons_of_mem b hmem)

/-- C5: on every non-empty path, `bbox_from_coords` returns
`some [minLon, minLat, maxLon, maxLat]` with
`minLon ≤ lon ≤ maxLon` and `minLat ≤ lat ≤ maxLat` for every point of
the path, each of the four bounds being attained by some point. -/
theorem bbox_from_coords_spec (coords : List (ℚ × ℚ)) (h : coords ≠ []) :
    ∃ mnx mny mxx mxy,
      bbox_from_coords coords = some [mnx, mny, mxx, mxy] ∧
      (∀ p ∈ coords, mnx ≤ p.2 ∧ p.2 ≤ mxx ∧ mny ≤ p.1 ∧ p.1 ≤ mxy) ∧
      (∃ p ∈ coords, p.2 = mnx) ∧ (∃ p ∈ coords, p.1 = mny) ∧
      (∃ p ∈ coords, p.2 = mxx) ∧ (∃ p ∈ coords, p.1 = mxy) := by
  obtain ⟨c, cs, rfl⟩ := List.exists_cons_of_ne_nil h
  refine ⟨(cs.map (fun p => p.2)).foldl min c.2, (cs.map (fun p => p.1)).foldl min c.1,
    (cs.map (fun p => p.2)).foldl max c.2, (cs.map (fun p => p.1)).foldl max c.1,
    ?_, ?_, ?_, ?_, ?_, ?_⟩
  · simp [bbox_from_coords, pyMinList, pyMaxList]
  · intro p hp
    rcases List.mem_cons.mp hp with rfl | hp
    · exact ⟨foldl_min_le_init _ _, le_foldl_max_init _ _,
        foldl_min_le_init _ _, le_foldl_max_init _ _⟩
    · exact ⟨foldl_min_le_mem _ _ _ (List.mem_map_of_mem _ hp),
        mem_le_foldl_max _ _ _ (List.mem_map_of_mem _ hp),
        foldl_min_le_mem _ _ _ (List.mem_map_of_mem _ hp),
        mem_le_foldl_max _ _ _ (List.mem_map_of_mem _ hp)⟩
  · rcases foldl_min_attained (cs.map (fun p => p.2)) c.2 with heq | hmem
    · exact ⟨c, List.mem_cons_self c cs, heq.symm⟩
    · obtain ⟨p, hp, hv⟩ := List.mem_map.mp hmem
      exact ⟨p, List.mem_cons_of_mem c hp, hv⟩
  · rcases foldl_min_attained (cs.map (fun p => p.1)) c.1 with heq | hmem
    · exact ⟨c, List.mem_cons_self c cs, heq.symm⟩
    · obtain ⟨p, hp, hv⟩ := List.mem_map.mp hmem
      exact ⟨p, List.mem_cons_of_mem c hp, hv⟩
  · rcases foldl_max_attained (cs.map (fun p => p.2)) c.2 with heq | hmem
    · exact ⟨c, List.mem_cons_self c cs, heq.symm⟩
    · obtain ⟨p, hp, hv⟩ := List.mem_map.mp hmem
      exact ⟨p, List.mem_cons_of_mem c hp, hv⟩
  · rcases foldl_max_attained (cs.map (fun p => p.1)) c.1 with heq | hmem
    · exact ⟨c, List.mem_cons_self c cs, heq.symm⟩
    · obtain ⟨p, hp, hv⟩ := List.mem_map.mp hmem
      exact ⟨p, List.mem_cons_of_mem c hp, hv⟩

/-- Witness for C5 at the concrete two-point path `[(1, 2), (3, 4)]`. -/
theorem bbox_from_coords_spec_witness :
    ([((1 : ℚ), (2 : ℚ)), ((3 : ℚ), (4 : ℚ))] ≠ ([] : List (ℚ × ℚ))) ∧
    (∃ mnx mny mxx mxy,
      bbox_from_coords [((1 : ℚ), (2 : ℚ)), ((3 : ℚ), (4 : ℚ))] = some [mnx, mny, mxx, mxy] ∧
      (∀ p ∈ [((1 : ℚ), (2 : ℚ)), ((3 : ℚ), (4 : ℚ))],
        mnx ≤ p.2 ∧ p.2 ≤ mxx ∧ mny ≤ p.1 ∧ p.1 ≤ mxy) ∧
      (∃ p ∈ [((1 : ℚ), (2 : ℚ)), ((3 : ℚ), (4 : ℚ))], p.2 = mnx) ∧
      (∃ p ∈ [((1 : ℚ), (2 : ℚ)), ((3 : ℚ), (4 : ℚ))], p.1 = mny) ∧
      (∃ p ∈ [((1 : ℚ), (2 : ℚ)), ((3 : ℚ), (4 : ℚ))], p.2 = mxx) ∧
      (∃ p ∈ [((1 : ℚ), (2 : ℚ)), ((3 : ℚ), (4 : ℚ))], p.1 = mxy)) :=
  ⟨by decide, bbox_from_coords_spec _ (by decide)⟩

/-! ## Claim C3: decode is a left inverse of the matching encoder

The repository only contains the decoder.  The encoder below is
modelled from the spec: "encoding with the matching signed-delta
scheme" — the standard 5-bits-per-character, continuation-bit,
zigzag-signed polyline encoding whose decoder the source implements. -/

/-- Bit-field concatenation: or-ing a value below `2 ^ s` with a value
shifted left by `s` is addition. -/
theorem lor_shiftLeft_eq_add {a : Nat} (b s : Nat) (h : a < 2 ^ s) :
    a ||| b <<< s = a + b * 2 ^ s := by
  have hmod : (a ||| b <<< s) % 2 ^ s = a := by
    apply Nat.eq_of_testBit_eq
    intro i
    simp only [Nat.testBit_mod_two_pow, Nat.testBit_lor, Nat.testBit_shiftLeft]
    by_cases hi : i < s
    · have hs : ¬ (i ≥ s) := by omega
      simp [hi, hs]
    · have ha : a.testBit i = false :=
        Nat.testBit_lt_two_pow
          (lt_of_lt_of_le h (Nat.pow_le_pow_right (by omega) (by omega)))
      simp [hi, ha]
  have hdiv : (a ||| b <<< s) >>> s = b := by
    apply Nat.eq_of_testBit_eq
    intro i
    simp only [Nat.testBit_shiftRight, Nat.testBit_lor, Nat.testBit_shiftLeft]
    have ha : a.testBit (s + i) = false :=
      Nat.testBit_lt_two_pow
        (lt_of_lt_of_le h (Nat.pow_le_pow_right (by omega) (by omega)))
    have hs : s + i ≥ s := by omega
    simp [ha, hs]
  have hx := Nat.div_add_mod (a ||| b <<< s) (2 ^ s)
  rw [← Nat.shiftRight_eq_div_pow, hdiv, hmod] at hx
  calc a ||| b <<< s = 2 ^ s * b + a := hx.symm
    _ = a + b * 2 ^ s := by ring

theorem encodeChunks_ne_nil (v : Nat) : encodeChunks v ≠ [] := by
  rw [encodeChunks]
  split <;> simp

theorem encodeChunks_lt_128 (v : Nat) : ∀ c ∈ encodeChunks v, c < 128 := by
  induction v using Nat.strong_induction_on with
  | _ v ih =>
    intro c hc
    rw [encodeChunks] at hc
    split at hc
    · simp only [List.mem_singleton] at hc
      omega
    · rcases List.mem_cons.mp hc with rfl | hc
      · have := Nat.mod_lt v (show 0 < 32 by omega)
        omega
      · exact ih (v / 32) (Nat.div_lt_self (by omega) (by omega)) c hc

/-- Reading one varint back from its chunk encoding: the decoder's
inner loop inverts `encodeChunks`, whatever follows on the input. -/
theorem decodeVarint_encodeChunks (v : Nat) :
    ∀ (t : List Nat) (shift acc : Nat), acc < 2 ^ shift →
      decodeVarint (encodeChunks v ++ t) shift acc = some (acc + v * 2 ^ shift, t) := by
  induction v using Nat.strong_induction_on with
  | _ v ih =>
    intro t shift acc hacc
    rw [encodeChunks]
    by_cases hv : v < 32
    · rw [if_pos hv]
      simp only [List.cons_append, List.nil_append, decodeVarint]
      have hb : ((((v + 63 : Nat) : Int)) - 63) % 32 = (v : Int) := by omega
      have hblt : (((v + 63 : Nat) : Int)) - 63 < 32 := by omega
      rw [if_pos hblt, hb]
      have htn : ((v : Int)).toNat = v := by omega
      rw [htn, lor_shiftLeft_eq_add v shift hacc]
      simp
    · rw [if_neg hv]
      simp only [List.cons_append, decodeVarint]
      have hbge : ¬ ((((32 + v % 32 + 63 : Nat) : Int)) - 63 < 32) := by omega
      rw [if_neg hbge]
      have hb : ((((32 + v % 32 + 63 : Nat) : Int)) - 63) % 32 = ((v % 32 : Nat) : Int) := by
        omega
      rw [hb]
      have htn : (((v % 32 : Nat) : Int)).toNat = v % 32 := by omega
      rw [htn, lor_shiftLeft_eq_add (v % 32) shift hacc]
      have hm : v % 32 < 32 := Nat.mod_lt v (by omega)
      have hacc2 : acc + v % 32 * 2 ^ shift < 2 ^ (shift + 5) := by
        have h1 : v % 32 * 2 ^ shift ≤ 31 * 2 ^ shift :=
          Nat.mul_le_mul_right _ (by omega)
        have h2 : 2 ^ (shift + 5) = 32 * 2 ^ shift := by rw [pow_add]; ring
        omega
      simp only [List.append_eq]
      rw [ih (v / 32) (Nat.div_lt_self (by omega) (by omega)) t (shift + 5) _ hacc2]
      have harith : acc + v % 32 * 2 ^ shift + v / 32 * 2 ^ (shift + 5) =
          acc + v * 2 ^ shift := by
        have hvd : v % 32 + 32 * (v / 32) = v := Nat.mod_add_div v 32
        calc acc + v % 32 * 2 ^ shift + v / 32 * 2 ^ (shift + 5)
            = acc + (v % 32 + 32 * (v / 32)) * 2 ^ shift := by rw [pow_add]; ring
          _ = acc + v * 2 ^ shift := by rw [hvd]
      rw [harith]

/-- The sign decoding of `decode_polyline` inverts the sign encoding. -/
theorem signedDelta_encodeSignedValue (d : Int) :
    signedDelta (encodeSignedValue d) = d := by
  simp only [signedDelta, encodeSignedValue, Nat.and_one_is_mod,
    Nat.shiftRight_eq_div_pow, pow_one]
  split_ifs <;> omega

theorem length_le_encodeCoords :
    ∀ (xs : List (Int × Int)) (plat plng : Int),
      xs.length ≤ (encodeCoords plat plng xs).length := by
  intro xs
  induction xs with
  | nil => intro plat plng; simp [encodeCoords]
  | cons p rest ih =>
    intro plat plng
    obtain ⟨la, ln⟩ := p
    have h1 : encodeSigned (la - plat) ≠ [] := encodeChunks_ne_nil _
    have h2 : encodeSigned (ln - plng) ≠ [] := encodeChunks_ne_nil _
    have hl1 : 1 ≤ (encodeSigned (la - plat)).length := by
      cases hminor : encodeSigned (la - plat) with
      | nil => exact absurd hminor h1
      | cons a l => simp
    have hl2 : 1 ≤ (encodeSigned (ln - plng)).length := by
      cases hminor : encodeSigned (ln - plng) with
      | nil => exact absurd hminor h2
      | cons a l => simp
    have := ih la ln
    simp only [encodeCoords, List.length_append, List.length_cons]
    omega

/-- The decoder loop, at the integer level, inverts the relative
encoding of a coordinate list, for any sufficient fuel. -/
theorem decodeLoopZ_encodeCoords :
    ∀ (xs : List (Int × Int)) (fuel : Nat) (plat plng : Int),
      xs.length ≤ fuel →
      decodeLoopZ fuel (encodeCoords plat plng xs) plat plng = some xs := by
  intro xs
  induction xs with
  | nil =>
    intro fuel plat plng hfuel
    cases fuel <;> simp [encodeCoords, decodeLoopZ]
  | cons p rest ih =>
    intro fuel plat plng hfuel
    obtain ⟨la, ln⟩ := p
    cases fuel with
    | zero => simp at hfuel
    | succ f =>
      obtain ⟨c, cs0, h1⟩ :=
        List.exists_cons_of_ne_nil (encodeChunks_ne_nil (encodeSignedValue (la - plat)))
      simp only [encodeCoords, encodeSigned, h1, List.cons_append, decodeLoopZ]
      rw [← List.cons_append, ← h1,
        decodeVarint_encodeChunks _ _ 0 0 (by norm_num)]
      simp only [Nat.pow_zero, Nat.mul_one, Nat.zero_add]
      rw [signedDelta_encodeSignedValue]
      obtain ⟨c2, cs2, h2⟩ :=
        List.exists_cons_of_ne_nil (encodeChunks_ne_nil (encodeSignedValue (ln - plng)))
      rw [show encodeChunks (encodeSignedValue (ln - plng)) ++ encodeCoords la ln rest =
        encodeSigned (ln - plng) ++ encodeCoords la ln rest from rfl]
      rw [show (encodeSigned (ln - plng) ++ encodeCoords la ln rest : List Nat) =
        encodeChunks (encodeSignedValue (ln - plng)) ++ encodeCoords la ln rest from rfl,
        decodeVarint_encodeChunks _ _ 0 0 (by norm_num)]
      simp only [Nat.pow_zero, Nat.mul_one, Nat.zero_add]
      rw [signedDelta_encodeSignedValue]
      have hplat : plat + (la - plat) = la := by ring
      have hplng : plng + (ln - plng) = ln := by ring
      rw [hplat, hplng, ih f la ln (by simp only [List.length_cons] at hfuel; omega)]

theorem char_toNat_ofNat {n : Nat} (h : n < 128) : (Char.ofNat n).toNat = n := by
  rw [Char.ofNat, dif_pos (Or.inl (show n < 55296 by omega))]
  rfl

theorem encodeCoords_lt_128 :
    ∀ (xs : List (Int × Int)) (plat plng : Int), ∀ c ∈ encodeCoords plat plng xs, c < 128 := by
  intro xs
  induction xs with
  | nil => intro plat plng c hc; simp [encodeCoords] at hc
  | cons p rest ih =>
    intro plat plng c hc
    obtain ⟨la, ln⟩ := p
    simp only [encodeCoords, List.mem_append] at hc
    rcases hc with hc | hc | hc
    · exact encodeChunks_lt_128 _ c hc
    · exact encodeChunks_lt_128 _ c hc
    · exact ih la ln c hc

/-- C3: decoding inverts the matching signed-delta encoding — for every
sequence of coordinates given in units of `1e-5` degrees (that is,
coordinates rounded to 5 decimal places), `decode_polyline` applied to
the encoded polyline reproduces the sequence exactly. -/
theorem decode_encode_roundtrip (xs : List (Int × Int)) :
    decode_polyline (encode_polyline xs) =
      some (xs.map fun p => ((p.1 : ℚ) / 100000, (p.2 : ℚ) / 100000)) := by
  have hcodes : (encode_polyline xs).toList.map Char.toNat = encodeCoords 0 0 xs := by
    simp only [encode_polyline]
    have htl : (String.mk ((encodeCoords 0 0 xs).map Char.ofNat)).toList =
        (encodeCoords 0 0 xs).map Char.ofNat := rfl
    rw [htl, List.map_map]
    have hpt : ∀ c ∈ encodeCoords 0 0 xs, (Char.toNat ∘ Char.ofNat) c = id c := by
      intro c hc
      exact char_toNat_ofNat (encodeCoords_lt_128 xs 0 0 c hc)
    rw [List.map_congr_left hpt, List.map_id]
  simp only [decode_polyline]
  rw [hcodes, decodeLoop_eq_decodeLoopZ,
    decodeLoopZ_encodeCoords xs _ 0 0 (length_le_encodeCoords xs 0 0)]
  rfl

/-! ## Claim C2: malformed polylines

`decode_polyline` does signal a decoding error distinct from the empty
result (`none` versus `some []`), but `main` has no try/except around
the decode call: the error escapes and aborts the whole run instead of
skipping the route. -/

/-- C2 (counterexample): with a malformed polyline on route 5 followed
by a valid route 6, the run aborts at route 5 (`Except.error 5`): route
5 is not skipped and route 6 is never processed, where the claim
expects skip-and-continue. -/
theorem malformed_polyline_aborts_run :
    main_model "routes" "2024-01-01T00:00:00+00:00" 1
      [{ route := badRouteC2, detailFetch := Except.error () },
       { route := goodRouteC2, detailFetch := Except.error () }] =
      Except.error 5 := by
  decide

/-- C2 (amended): on a route whose resolved polyline is present but
malformed, the decoder signals an error distinct from the empty/no
polyline case (`none`, not `some []`), but the error is not caught
per-route: the iteration raises instead of skipping, and the run
aborts at that route rather than continuing. -/
theorem malformed_polyline_error_uncaught (routesDir : String) (r : RawRoute)
    (d : Except Unit (Option MapField)) (rest : List RunInput)
    (htr : truthyStr (resolveMp d r) = true)
    (hdec : decode_polyline ((resolveMp d r).getD "") = none) :
    decode_polyline ((resolveMp d r).getD "") ≠ some [] ∧
    processRoute routesDir r d = RouteOutcome.raisedIndexError ∧
    runRoutes routesDir ({ route := r, detailFetch := d } :: rest) = Except.error r.id := by
  have hp : processRoute routesDir r d = RouteOutcome.raisedIndexError := by
    simp only [processRoute, htr, hdec, if_true]
  refine ⟨by rw [hdec]; simp, hp, by simp only [runRoutes, hp]⟩

/-- Witness for C2's amended statement at the concrete malformed
route. -/
theorem malformed_polyline_error_uncaught_witness :
    (truthyStr (resolveMp (Except.error ()) badRouteC2) = true) ∧
    (decode_polyline ((resolveMp (Except.error ()) badRouteC2).getD "") = none) ∧
    (decode_polyline ((resolveMp (Except.error ()) badRouteC2).getD "") ≠ some [] ∧
     processRoute "routes" badRouteC2 (Except.error ()) = RouteOutcome.raisedIndexError ∧
     runRoutes "routes" [{ route := badRouteC2, detailFetch := Except.error () }] =
       Except.error badRouteC2.id) :=
  ⟨by decide, by decide,
    malformed_polyline_error_uncaught "routes" badRouteC2 (Except.error ()) []
      (by decide) (by decide)⟩

/-! ## Claim C7: manifest `file` field versus written path

Line 203 writes the file under the configurable `ROUTES_DIR`, but line
216 records `f"routes/{filename}"` with a hard-coded `routes/` prefix:
with any non-default root the manifest points at a path where nothing
was written. -/

/-- C7 (code bug, evaluated at the failing input): with the routes
root configured to `"data"`, route 7 (name `"x"`) is written to
`data/strava_route_7_x.geojson` while its manifest entry's `file`
field reads `routes/strava_route_7_x.geojson` — the two disagree. -/
theorem manifest_file_field_mismatch :
    outcomePath (processRoute "data" routeC7 (Except.error ())) =
      some "data/strava_route_7_x.geojson" ∧
    outcomeFile (processRoute "data" routeC7 (Except.error ())) =
      some "routes/strava_route_7_x.geojson" ∧
    ("routes/strava_route_7_x.geojson" : String) ≠ "data/strava_route_7_x.geojson" := by
  refine ⟨by decide, by decide, by decide⟩

/-! ## Claim C9: default route name -/

/-- C9: when a route's display name is missing or empty, the name used
for the feature properties, the slug derivation and the manifest entry
is `"Route <id>"`. -/
theorem default_name_used (r : RawRoute) (h : r.name = none ∨ r.name = some "") :
    routeName r = "Route " ++ toString r.id ∧
    ∀ routesDir d f e, processRoute routesDir r d = RouteOutcome.ok f e →
      e.name = "Route " ++ toString r.id ∧
      e.slug = slugify ("Route " ++ toString r.id) ∧
      ∀ ft ∈ f.doc.features,
        ft.properties.name = "Route " ++ toString r.id ∧
        ft.properties.slug = slugify ("Route " ++ toString r.id) := by
  have hname : routeName r = "Route " ++ toString r.id := by
    rcases h with h | h <;> simp [routeName, h]
  refine ⟨hname, ?_⟩
  intro routesDir d f e hok
  simp only [processRoute] at hok
  split at hok
  · split at hok
    · cases hok
    · cases hok
    · split at hok
      · cases hok
      · split at hok
        · cases hok
        · rw [RouteOutcome.ok.injEq] at hok
          obtain ⟨hf, he⟩ := hok
          subst hf
          subst he
          refine ⟨hname, by rw [hname], ?_⟩
          intro ft hft
          simp only [polyline_to_geojson_feature, List.mem_singleton] at hft
          subst hft
          exact ⟨hname, by rw [hname]⟩
  · cases hok

theorem default_name_used_witness :
    (routeC9.name = none ∨ routeC9.name = some "") ∧
    (routeName routeC9 = "Route " ++ toString routeC9.id ∧
     ∀ routesDir d f e, processRoute routesDir routeC9 d = RouteOutcome.ok f e →
       e.name = "Route " ++ toString routeC9.id ∧
       e.slug = slugify ("Route " ++ toString routeC9.id) ∧
       ∀ ft ∈ f.doc.features,
         ft.properties.name = "Route " ++ toString routeC9.id ∧
         ft.properties.slug = slugify ("Route " ++ toString routeC9.id)) :=
  ⟨Or.inl rfl, default_name_used routeC9 (Or.inl rfl)⟩

/-! ## Claim C10: zero defaults for elevation and distance -/

theorem km_zero : km 0 = 0 := by
  norm_num [km, pyRound3, roundHalfEven]

/-- C10: independently of each other, a missing or null
`elevation_gain` yields `elev_gain_m = 0.0` (a number, never null — the
field is numeric by construction), and a missing `distance` yields
`distance_m = 0.0` and `distance_km = 0.0`, in both the feature
properties and the manifest entry. -/
theorem zero_defaults (r : RawRoute) :
    ((r.elevation_gain = none ∨ r.elevation_gain = some none) →
      ∀ routesDir d f e, processRoute routesDir r d = RouteOutcome.ok f e →
        e.elev_gain_m = 0 ∧
        ∀ ft ∈ f.doc.features, ft.properties.elev_gain_m = 0) ∧
    (r.distance = none →
      ∀ routesDir d f e, processRoute routesDir r d = RouteOutcome.ok f e →
        e.distance_m = 0 ∧ e.distance_km = 0 ∧
        ∀ ft ∈ f.doc.features,
          ft.properties.distance_m = 0 ∧ ft.properties.distance_km = 0) := by
  constructor
  · intro helev routesDir d f e hok
    simp only [processRoute] at hok
    split at hok
    · split at hok
      · cases hok
      · cases hok
      · split at hok
        · cases hok
        · split at hok
          · cases hok
          · rw [RouteOutcome.ok.injEq] at hok
            obtain ⟨hf, he⟩ := hok
            subst hf
            subst he
            have helev0 : (match r.elevation_gain.getD (some 0) with
                | none => (0 : ℚ) | some x => x) = 0 := by
              rcases helev with h | h <;> simp [h]
            refine ⟨helev0, ?_⟩
            intro ft hft
            simp only [polyline_to_geojson_feature, List.mem_singleton] at hft
            subst hft
            exact helev0
    · cases hok
  · intro hdist routesDir d f e hok
    simp only [processRoute] at hok
    split at hok
    · split at hok
      · cases hok
      · cases hok
      · split at hok
        · cases hok
        · split at hok
          · cases hok
          · rw [RouteOutcome.ok.injEq] at hok
            obtain ⟨hf, he⟩ := hok
            subst hf
            subst he
            have hdist0 : r.distance.getD 0 = 0 := by simp [hdist]
            refine ⟨hdist0, by rw [hdist0]; exact km_zero, ?_⟩
            intro ft hft
            simp only [polyline_to_geojson_feature, List.mem_singleton] at hft
            subst hft
            exact ⟨hdist0, by rw [hdist0]; exact km_zero⟩
    · cases hok

/-- Witness for C10, exercising each default independently: route 10
has only `elevation_gain` missing (its `distance` is present), route 11
has only `distance` missing (its `elevation_gain` is present). -/
theorem zero_defaults_witness :
    (routeC10.elevation_gain = none ∨ routeC10.elevation_gain = some none) ∧
    (routeC10b.distance = none) ∧
    (∀ routesDir d f e, processRoute routesDir routeC10 d = RouteOutcome.ok f e →
      e.elev_gain_m = 0 ∧
      ∀ ft ∈ f.doc.features, ft.properties.elev_gain_m = 0) ∧
    (∀ routesDir d f e, processRoute routesDir routeC10b d = RouteOutcome.ok f e →
      e.distance_m = 0 ∧ e.distance_km = 0 ∧
      ∀ ft ∈ f.doc.features,
        ft.properties.distance_m = 0 ∧ ft.properties.distance_km = 0) :=
  ⟨Or.inl rfl, rfl, (zero_defaults routeC10).1 (Or.inl rfl),
    (zero_defaults routeC10b).2 rfl⟩

/-! ## Claim C6: manifest sort order -/

theorem strLt_trichotomy : ∀ a b : List Char, strLt a b = true ∨ strLt b a = true ∨ a = b := by
  intro a
  induction a with
  | nil => intro b; cases b <;> simp [strLt]
  | cons x xs ih =>
    intro b
    cases b with
    | nil => simp [strLt]
    | cons y ys =>
      by_cases hxy : x.toNat < y.toNat
      · exact Or.inl (by simp [strLt, hxy])
      · by_cases hyx : y.toNat < x.toNat
        · exact Or.inr (Or.inl (by simp [strLt, hyx]))
        · have hn : x.toNat = y.toNat := by omega
          have hchar : x = y :=
            Char.eq_of_val_eq (UInt32.eq_of_toBitVec_eq (BitVec.eq_of_toNat_eq hn))
          subst hchar
          rcases ih ys with h | h | h
          · exact Or.inl (by simp [strLt, h])
          · exact Or.inr (Or.inl (by simp [strLt, h]))
          · exact Or.inr (Or.inr (by rw [h]))

theorem strLt_trans : ∀ a b c : List Char,
    strLt a b = true → strLt b c = true → strLt a c = true := by
  intro a
  induction a with
  | nil =>
    intro b c hab hbc
    cases b with
    | nil => simp [strLt] at hab
    | cons y ys =>
      cases c with
      | nil => simp [strLt] at hbc
      | cons z zs => simp [strLt]
  | cons x xs ih =>
    intro b c hab hbc
    cases b with
    | nil => simp [strLt] at hab
    | cons y ys =>
      cases c with
      | nil => simp [strLt] at hbc
      | cons z zs =>
        simp only [strLt] at hab hbc ⊢
        split_ifs at hab hbc ⊢ <;> try omega
        all_goals first
        | rfl
        | (exact ih ys zs hab hbc)

theorem manifestLe_total : ∀ a b : ManifestEntry, manifestLe a b ∨ manifestLe b a := by
    intro a b
    unfold manifestLe keyLt
    rcases strLt_trichotomy (sortKey a).1.toList (sortKey b).1.toList with h | h | h
    · exact Or.inl (Or.inl (Or.inl h))
    · exact Or.inr (Or.inl (Or.inl h))
    · have h1 : (sortKey a).1 = (sortKey b).1 := String.toList_inj.mp h
      rcases strLt_trichotomy (sortKey a).2.toList (sortKey b).2.toList with h2 | h2 | h2
      · exact Or.inl (Or.inl (Or.inr ⟨h1, h2⟩))
      · exact Or.inr (Or.inl (Or.inr ⟨h1.symm, h2⟩))
      · exact Or.inl (Or.inr (Prod.ext h1 (String.toList_inj.mp h2)))

theorem manifestLe_trans : ∀ a b c : ManifestEntry,
    manifestLe a b → manifestLe b c → manifestLe a c := by
    intro a b c hab hbc
    unfold manifestLe keyLt at hab hbc ⊢
    rcases hab with hab | hab
    · rcases hbc with hbc | hbc
      · refine Or.inl ?_
        rcases hab with h1 | h1 <;> rcases hbc with h2 | h2
        · exact Or.inl (strLt_trans _ _ _ h1 h2)
        · exact Or.inl (h2.1 ▸ h1)
        · exact Or.inl (h1.1 ▸ h2)
        · exact Or.inr ⟨h1.1.trans h2.1, strLt_trans _ _ _ h1.2 h2.2⟩
      · exact Or.inl (hbc ▸ hab)
    · rw [hab]; exact hbc

/-- C6: the manifest's routes list is a permutation of the collected
entries sorted ascending by the lexicographic key
`(type or "", name or "")` (missing type read as the empty string);
in particular types `["run","ride","ride"]` with names `["B","A","Z"]`
come out in the order ride/A, ride/Z, run/B. -/
theorem manifest_sort_spec :
    (∀ l : List ManifestEntry, (sortRoutes l).Perm l) ∧
    (∀ l : List ManifestEntry, (sortRoutes l).Sorted manifestLe) ∧
    (∀ routesDir gen aid inputs, manifestRoutesSorted (main_model routesDir gen aid inputs)) ∧
    (∀ nm : String, sortKey (mkSortEntry none nm) = ("", nm)) ∧
    sortRoutes [mkSortEntry (some "run") "B", mkSortEntry (some "ride") "A",
        mkSortEntry (some "ride") "Z"] =
      [mkSortEntry (some "ride") "A", mkSortEntry (some "ride") "Z",
        mkSortEntry (some "run") "B"] := by
  haveI : IsTotal ManifestEntry manifestLe := ⟨manifestLe_total⟩
  haveI : IsTrans ManifestEntry manifestLe := ⟨fun a b c => manifestLe_trans a b c⟩
  refine ⟨fun l => List.perm_insertionSort manifestLe l,
    fun l => List.sorted_insertionSort manifestLe l, ?_, fun nm => rfl, ?_⟩
  · intro routesDir gen aid inputs
    unfold main_model manifestRoutesSorted
    cases runRoutes routesDir inputs with
    | error n => exact trivial
    | ok p =>
      obtain ⟨fs, es⟩ := p
      exact List.sorted_insertionSort manifestLe es
  · decide

end StravaCache
